import Mathlib

/-!
Verification of the transport and codec layer of the `astra-db-ts` client.

The development shallowly embeds the TypeScript sources:

* `src/api/http-client.ts` — `serializeCommand` and its per-value replacer
  `handleValues`, modelled over an extended-JSON document type `JVal`.
  `EJSON.stringify(data, handleValues, indent)` is modelled as the
  JSON-stringify-with-replacer pass over the extended-JSON document: the
  replacer is applied to the root and, recursively, to every member of the
  value it returns; the resulting plain document is the text's parse.
* `src/api/http2.ts` — `HTTP2Strategy` as a small state machine
  (`H2State`, `requestStart`) plus per-request event processing
  (`ReqCtx`, `stepEvent`): the promise handlers installed on the stream.
* `src/devops/errors.ts` — `DevOpsAPIResponseError` construction and
  `extractErrorDescriptors`.
* `src/devops/astra-db-admin.ts` — `listNamespaces`, and the status-poller
  call-site configurations of the blocking admin operations.
-/

namespace AstraSpec

attribute [local semireducible] Rat.mul Rat.inv Rat.add Rat.sub Rat.ofScientific

/-! Extended-JSON document values, as seen by the `handleValues` replacer in
`serializeCommand`.  `jbigint` is a raw JavaScript BigInt leaf; `jnan` is a
non-finite number (JSON.stringify emits `null` for it); tagged forms such as
an object with an `$oid` key are ordinary objects whose keys the replacer
inspects. -/
mutual

inductive JVal where
| jnull : JVal
| jbool : Bool → JVal
| jnum : ℚ → JVal
| jnan : JVal
| jstr : String → JVal
| jbigint : ℤ → JVal
| jarr : JArr → JVal
| jobj : JObj → JVal
deriving DecidableEq

inductive JArr where
| nil : JArr
| cons : JVal → JArr → JArr
deriving DecidableEq

inductive JObj where
| nil : JObj
| cons : String → JVal → JObj → JObj
deriving DecidableEq

end

/-- First field with the given key, as JavaScript property access `value[k]`. -/
def lookupField : JObj → String → Option JVal
| .nil, _ => none
| .cons k v tl, key => if k = key then some v else lookupField tl key

/-- JavaScript truthiness of a value (`if (value)` / `value && ...`):
`null`, `false`, `0`, `NaN`, `""` and BigInt `0n` are falsy; any array or
object is truthy. -/
def truthy : JVal → Bool
| .jnull => false
| .jbool b => b
| .jnum q => q != 0
| .jnan => false
| .jstr s => s != ""
| .jbigint n => n != 0
| .jarr _ => true
| .jobj _ => true

/-- Truthiness of property `k` of an object (`value.k` is truthy): absent
properties are `undefined`, hence falsy. -/
def truthyAt (fs : JObj) (k : String) : Bool :=
  match lookupField fs k with
  | some v => truthy v
  | none => false

/-! Node sizes, used as fuel bounds for the encoder. -/
mutual

def jsize : JVal → ℕ
| .jnull | .jbool _ | .jnum _ | .jnan | .jstr _ | .jbigint _ => 1
| .jarr xs => 1 + jsizeA xs
| .jobj fs => 1 + jsizeO fs

def jsizeA : JArr → ℕ
| .nil => 1
| .cons v tl => 1 + jsize v + jsizeA tl

def jsizeO : JObj → ℕ
| .nil => 1
| .cons _ v tl => 1 + jsize v + jsizeO tl

end

/-! ### IEEE-754 double conversion (`Number(...)`)

`handleValues` converts BigInt and `$numberDecimal` leaves with JavaScript's
`Number(...)`, which rounds the exact value to the nearest binary64 float
(ties to even).  `jsRound` implements that rounding exactly on rationals in
the normal finite range, which covers every value the theorems below exercise. -/

/-- Round `a / b` (with `b > 0`) to the nearest natural, ties to even. -/
def roundTiesEven (a b : ℕ) : ℕ :=
  let q := a / b
  let r := a % b
  if 2 * r < b then q
  else if b < 2 * r then q + 1
  else if q % 2 = 0 then q else q + 1

/-- Fuelled base-2 logarithm, structurally recursive so that the kernel can
evaluate it. -/
def natLog2F : ℕ → ℕ → ℕ
| 0, _ => 0
| f + 1, n => if 2 ≤ n then natLog2F f (n / 2) + 1 else 0

/-- Base-2 logarithm (floor) of a natural number; `n + 1` units of fuel always
suffice since the argument halves at each step. -/
def natLog2 (n : ℕ) : ℕ := natLog2F (n + 1) n

/-- Floor of the base-2 logarithm of `a / b`, for `a, b ≥ 1`. -/
def floorLog2Frac (a b : ℕ) : ℤ :=
  if b ≤ a then (natLog2 (a / b) : ℤ)
  else
    let c := natLog2 b - natLog2 a
    if b ≤ a * 2 ^ c then -(c : ℤ) else -((c : ℤ) + 1)

/-- Round a rational to the nearest IEEE-754 binary64 value (53-bit mantissa,
round to nearest, ties to even), i.e. JavaScript `Number(...)` of an exact
numeric value in the normal finite range. -/
def jsRound (q : ℚ) : ℚ :=
  if q = 0 then 0
  else
    let a := q.num.natAbs
    let b := q.den
    let e := floorLog2Frac a b
    let m :=
      if e ≤ 52 then roundTiesEven (a * 2 ^ (52 - e).toNat) b
      else roundTiesEven a (b * 2 ^ (e - 52).toNat)
    let mag : ℚ :=
      if e ≤ 52 then (m : ℚ) / (2 ^ (52 - e).toNat : ℚ)
      else (m : ℚ) * (2 ^ (e - 52).toNat : ℚ)
    if q.num < 0 then -mag else mag

/-! ### Decimal string parsing (`Number(string)`) -/

/-- Value of a decimal digit character, `none` otherwise. -/
def digitVal (c : Char) : Option ℕ :=
  if '0' ≤ c ∧ c ≤ '9' then some (c.toNat - 48) else none

/-- Consume leading decimal digits, returning the accumulated value, the
number of digits consumed so far, and the rest of the input. -/
def digitsAux : List Char → ℕ × ℕ → (ℕ × ℕ) × List Char
| [], p => (p, [])
| c :: cs, (acc, cnt) =>
  match digitVal c with
  | some d => digitsAux cs (acc * 10 + d, cnt + 1)
  | none => ((acc, cnt), c :: cs)

/-- Exact rational value of a decimal string as parsed by `Number(string)`
restricted to the plain decimal grammar `[+-] digits [. digits] [(e|E)[+-]digits]`
with at least one digit; other inputs give `none` (JavaScript yields `NaN`
there, except for corner cases such as whitespace-only strings, hexadecimal
literals and `Infinity`, which no `$numberDecimal` payload takes). -/
def parseDecimal (s : String) : Option ℚ :=
  let (sgn, cs0) :=
    match s.data with
    | '+' :: r => ((1 : ℚ), r)
    | '-' :: r => ((-1 : ℚ), r)
    | r => ((1 : ℚ), r)
  let ((ip, ic), cs1) := digitsAux cs0 (0, 0)
  let ((fp, fc), cs2) :=
    match cs1 with
    | '.' :: r => digitsAux r (0, 0)
    | r => ((0, 0), r)
  if ic + fc = 0 then none
  else
    let mag : ℚ := ((ip * 10 ^ fc + fp : ℕ) : ℚ) / ((10 ^ fc : ℕ) : ℚ)
    match cs2 with
    | [] => some (sgn * mag)
    | 'e' :: r | 'E' :: r =>
      let (esgn, r1) :=
        match r with
        | '+' :: r1 => (true, r1)
        | '-' :: r1 => (false, r1)
        | r1 => (true, r1)
      let ((ev, ec), r2) := digitsAux r1 (0, 0)
      if ec = 0 ∨ r2 ≠ [] then none
      else if esgn then some (sgn * mag * ((10 ^ ev : ℕ) : ℚ))
      else some (sgn * mag / ((10 ^ ev : ℕ) : ℚ))
    | _ => none

/-- JavaScript `Number(x)` coercion of a document value; `none` is `NaN`.
String payloads parse as decimals; object and array payloads are modelled as
`NaN` (JavaScript coerces some arrays to numbers, which never occur here). -/
def jsToNumber : JVal → Option ℚ
| .jnum q => some q
| .jstr s => if s = "" then some 0 else parseDecimal s
| .jbool b => some (if b then 1 else 0)
| .jnull => some 0
| .jbigint n => some (n : ℚ)
| _ => none

/-! ### Base64 decoding and UUID formatting -/

/-- Value of a base64 alphabet character. -/
def b64Val (c : Char) : Option ℕ :=
  if 'A' ≤ c ∧ c ≤ 'Z' then some (c.toNat - 65)
  else if 'a' ≤ c ∧ c ≤ 'z' then some (c.toNat - 97 + 26)
  else if '0' ≤ c ∧ c ≤ '9' then some (c.toNat - 48 + 52)
  else if c = '+' then some 62
  else if c = '/' then some 63
  else none

/-- Bytes of one final base64 group of at most four 6-bit values. -/
def b64Group : List ℕ → List ℕ
| [a, b, c, d] => [a * 4 + b / 16, b % 16 * 16 + c / 4, c % 4 * 64 + d]
| [a, b, c] => [a * 4 + b / 16, b % 16 * 16 + c / 4]
| [a, b] => [a * 4 + b / 16]
| _ => []

/-- Bytes of a stream of 6-bit values, four at a time. -/
def b64Chunks : List ℕ → List ℕ
| a :: b :: c :: d :: rest => b64Group [a, b, c, d] ++ b64Chunks rest
| rest => b64Group rest

/-- `Buffer.from(s, "base64")`: non-alphabet characters (including padding)
are ignored, remaining 6-bit values are packed into bytes. -/
def base64Decode (s : String) : List ℕ :=
  b64Chunks (s.data.filterMap b64Val)

/-- Lowercase hexadecimal digit. -/
def hexDigit (n : ℕ) : Char :=
  if n < 10 then Char.ofNat (48 + n) else Char.ofNat (87 + n)

/-- Two lowercase hexadecimal digits of a byte. -/
def byteHex (b : ℕ) : List Char := [hexDigit (b / 16 % 16), hexDigit (b % 16)]

/-- `buffer.toString("hex")`: lowercase hexadecimal characters of a byte list. -/
def hexLower (bs : List ℕ) : List Char := (bs.map byteHex).flatten

/-- Insert hyphens into a 32-character string in 8-4-4-4-12 groups. -/
def hyphenate32 (cs : List Char) : List Char :=
  cs.take 8 ++ '-' :: ((cs.drop 8).take 4) ++ '-' :: ((cs.drop 12).take 4)
    ++ '-' :: ((cs.drop 16).take 4) ++ '-' :: ((cs.drop 20).take 12)

/-- The replacement `.replace(/(.\x7b8\x7d)(.\x7b4\x7d)(.\x7b4\x7d)(.\x7b4\x7d)(.\x7b12\x7d)/, "$1-$2-$3-$4-$5")`:
the first 32-character match is hyphenated, anything else is untouched. -/
def uuidReplace (cs : List Char) : List Char :=
  if 32 ≤ cs.length then hyphenate32 (cs.take 32) ++ cs.drop 32 else cs

/-- The `$binary` branch of `handleValues`: decode base64, hex-encode,
hyphenate as a UUID. -/
def binToUuid (b64 : String) : String :=
  ⟨uuidReplace (hexLower (base64Decode b64))⟩

/-! ### The `handleValues` replacer and the encoding pass of `serializeCommand` -/

/-- Result of the `$numberDecimal` branch: `Number(value.$numberDecimal)`,
with `NaN` serializing as `null`. -/
def numDecResult (fs : JObj) : JVal :=
  match jsToNumber ((lookupField fs "$numberDecimal").getD .jnull) with
  | some q => .jnum (jsRound q)
  | none => .jnull

/-- Guard of the `$binary` branch:
`value.$binary?.subType === "03" || value.$binary?.subType === "04"`. -/
def binCond (fs : JObj) : Bool :=
  match lookupField fs "$binary" with
  | some (.jobj g) =>
    decide (lookupField g "subType" = some (.jstr "03")
      ∨ lookupField g "subType" = some (.jstr "04"))
  | _ => false

/-- Result of the `$binary` branch: `Buffer.from(base64, "base64")` throws on
a missing or non-string payload (modelled `none`; array payloads, which Node
would accept as byte lists, never occur). -/
def binResult (fs : JObj) : Option JVal :=
  match lookupField fs "$binary" with
  | some (.jobj g) =>
    match lookupField g "base64" with
    | some (.jstr b) => some (.jstr (binToUuid b))
    | _ => none
  | _ => none

/-- The `$date` mutation `new Date(value.$date).valueOf()`: a numeric payload
is already the milliseconds value; other payloads are modelled as `NaN`
(ISO-string payloads would parse to their milliseconds value, which no theorem
exercises). -/
def dateConv : JVal → JVal
| .jnum q => .jnum q
| _ => .jnan

/-! The encoding pass of `serializeCommand`: apply `handleValues` to the root,
then serialize the members of the value it returns, applying the replacer to
every member recursively (the semantics of `JSON.stringify(data, replacer)`).
All functions take explicit fuel so that they are structurally recursive and
compute inside the kernel; `jsize` fuel is always enough (`encodeF_mono` and
the identity theorems below instantiate it).

`encodeValF` is the replacer applied at a node:
* BigInt branch: `value && typeof value === "bigint"` — the truthiness guard
  skips BigInt `0n`, which then reaches the serializer raw and makes it throw
  (`none`); nonzero BigInt becomes `Number(value)`.
* `$oid` branch: a truthy `$oid` payload replaces the object wholesale.
* `$numberDecimal`, `$binary`, `$date` branches as in the source.
* A raw BigInt or undefined tagged payload makes serialization throw: `none`.

`encodeBodyF` serializes a value the replacer already returned (its members
still go through the replacer, the value itself does not, per
`JSON.stringify` semantics). -/
mutual

def encodeValF : ℕ → JVal → Option JVal
| 0, _ => none
| _ + 1, .jnull => some .jnull
| _ + 1, .jbool b => some (.jbool b)
| _ + 1, .jnum q => some (.jnum q)
| _ + 1, .jnan => some .jnull
| _ + 1, .jstr s => some (.jstr s)
| _ + 1, .jbigint n => if n = 0 then none else some (.jnum (jsRound (n : ℚ)))
| f + 1, .jarr xs => (encodeArrF f xs).map .jarr
| f + 1, .jobj fs =>
  if truthyAt fs "$oid" then encodeBodyF f ((lookupField fs "$oid").getD .jnull)
  else if truthyAt fs "$numberDecimal" then some (numDecResult fs)
  else if binCond fs then binResult fs
  else if truthyAt fs "$date" then (encodeObjDateF f fs).map .jobj
  else (encodeObjF f fs).map .jobj

def encodeBodyF : ℕ → JVal → Option JVal
| 0, _ => none
| _ + 1, .jnull => some .jnull
| _ + 1, .jbool b => some (.jbool b)
| _ + 1, .jnum q => some (.jnum q)
| _ + 1, .jnan => some .jnull
| _ + 1, .jstr s => some (.jstr s)
| _ + 1, .jbigint _ => none
| f + 1, .jarr xs => (encodeArrF f xs).map .jarr
| f + 1, .jobj fs => (encodeObjF f fs).map .jobj

def encodeArrF : ℕ → JArr → Option JArr
| 0, _ => none
| _ + 1, .nil => some .nil
| f + 1, .cons v tl => do pure (.cons (← encodeValF f v) (← encodeArrF f tl))

def encodeObjF : ℕ → JObj → Option JObj
| 0, _ => none
| _ + 1, .nil => some .nil
| f + 1, .cons k v tl => do pure (.cons k (← encodeValF f v) (← encodeObjF f tl))

def encodeObjDateF : ℕ → JObj → Option JObj
| 0, _ => none
| _ + 1, .nil => some .nil
| f + 1, .cons k v tl =>
  if k = "$date" then do pure (.cons k (← encodeValF f (dateConv v)) (← encodeObjDateF f tl))
  else do pure (.cons k (← encodeValF f v) (← encodeObjDateF f tl))

end

/-- The encoding pass of `serializeCommand` on a document: the produced wire
document (the parse of the produced text), or `none` when serialization
throws. -/
def encode (v : JVal) : Option JVal := encodeValF (jsize v) v

/-! Plain JSON documents: no BigInt or non-finite leaves, and no object uses
any of the four keys the replacer dispatches on. -/
mutual

def plainV : JVal → Bool
| .jnull => true
| .jbool _ => true
| .jnum _ => true
| .jnan => false
| .jstr _ => true
| .jbigint _ => false
| .jarr xs => plainA xs
| .jobj fs => plainO fs

def plainA : JArr → Bool
| .nil => true
| .cons v tl => plainV v && plainA tl

def plainO : JObj → Bool
| .nil => true
| .cons k v tl =>
  !(k == "$oid" || k == "$numberDecimal" || k == "$binary" || k == "$date")
    && plainV v && plainO tl

end

/-- Decoding the text produced by the encoder: `JSON.parse` of the serialized
text is the document itself, since parse-of-print is the identity on plain
JSON documents (a document that still holds a raw BigInt never serializes). -/
def decodeDoc (w : JVal) : Option JVal := if plainV w then some w else none

/-! ### `JSON.parse`

A recursive-descent JSON parser over the character list, used by the response
assembly of `HTTP2Strategy.request` (`JSON.parse(responseBody)`).  Parsed
number literals are rounded to binary64 like JavaScript does.  Fuel keeps the
mutual recursion structural; `length + 2` units always suffice for a valid
input since every two units of fuel consume at least one character. -/

/-- Whitespace accepted by JSON. -/
def skipWs : List Char → List Char
| c :: cs => if c = ' ' ∨ c = '\t' ∨ c = '\n' ∨ c = '\r' then skipWs cs else c :: cs
| [] => []

/-- Value of a hexadecimal digit character. -/
def hexVal (c : Char) : Option ℕ :=
  if '0' ≤ c ∧ c ≤ '9' then some (c.toNat - 48)
  else if 'a' ≤ c ∧ c ≤ 'f' then some (c.toNat - 87)
  else if 'A' ≤ c ∧ c ≤ 'F' then some (c.toNat - 55)
  else none

/-- Parse the remainder of a JSON string literal (after the opening quote),
accumulating characters in reverse. -/
def parseStrAux : List Char → List Char → Option (String × List Char)
| [], _ => none
| '"' :: r, acc => some (⟨acc.reverse⟩, r)
| '\\' :: e :: r, acc =>
  match e with
  | '"' => parseStrAux r ('"' :: acc)
  | '\\' => parseStrAux r ('\\' :: acc)
  | '/' => parseStrAux r ('/' :: acc)
  | 'b' => parseStrAux r (Char.ofNat 8 :: acc)
  | 'f' => parseStrAux r (Char.ofNat 12 :: acc)
  | 'n' => parseStrAux r ('\n' :: acc)
  | 'r' => parseStrAux r (Char.ofNat 13 :: acc)
  | 't' => parseStrAux r ('\t' :: acc)
  | 'u' =>
    match r with
    | h1 :: h2 :: h3 :: h4 :: r2 =>
      (match hexVal h1, hexVal h2, hexVal h3, hexVal h4 with
       | some a, some b, some c, some d =>
         parseStrAux r2 (Char.ofNat (((a * 16 + b) * 16 + c) * 16 + d) :: acc)
       | _, _, _, _ => none)
    | _ => none
  | _ => none
| c :: r, acc => if c.toNat < 32 then none else parseStrAux r (c :: acc)

/-- Optional fraction part: digits after a decimal point. -/
def parseFrac : List Char → Option ((ℕ × ℕ) × List Char)
| '.' :: r =>
  let ((fp, fc), cs) := digitsAux r (0, 0)
  if fc = 0 then none else some ((fp, fc), cs)
| r => some ((0, 0), r)

/-- Optional exponent part: sign flag and magnitude. -/
def parseExp : List Char → Option ((Bool × ℕ) × List Char)
| 'e' :: r | 'E' :: r =>
  let (pos, r1) :=
    match r with
    | '+' :: r1 => (true, r1)
    | '-' :: r1 => (false, r1)
    | r1 => (true, r1)
  let ((ev, ec), r2) := digitsAux r1 (0, 0)
  if ec = 0 then none else some ((pos, ev), r2)
| r => some ((true, 0), r)

/-- Parse a JSON number literal (strict grammar: no leading zeros, a digit
required on both sides of the decimal point), rounded to binary64. -/
def parseNum (cs : List Char) : Option (ℚ × List Char) :=
  let (neg, cs0) : Bool × List Char :=
    match cs with
    | c :: r => if c = '-' then (true, r) else (false, c :: r)
    | [] => (false, [])
  let ((ip, ic), cs1) := digitsAux cs0 (0, 0)
  if ic = 0 then none
  else if 2 ≤ ic ∧ cs0.head? = some '0' then none
  else do
    let ((fp, fc), cs2) ← parseFrac cs1
    let ((epos, ev), cs3) ← parseExp cs2
    let mag : ℚ := ((ip * 10 ^ fc + fp : ℕ) : ℚ) / ((10 ^ fc : ℕ) : ℚ)
    let mag := if epos then mag * ((10 ^ ev : ℕ) : ℚ) else mag / ((10 ^ ev : ℕ) : ℚ)
    pure (jsRound (if neg then -mag else mag), cs3)

/-- Consume an expected literal character sequence. -/
def dropChars : List Char → List Char → Option (List Char)
| [], cs => some cs
| l :: ls, c :: cs => if c = l then dropChars ls cs else none
| _ :: _, [] => none

/-- Opening brace character, written by code point. -/
def lbrace : Char := Char.ofNat 123

/-- Closing brace character, written by code point. -/
def rbrace : Char := Char.ofNat 125

mutual

def parseJ : ℕ → List Char → Option (JVal × List Char)
| 0, _ => none
| f + 1, cs =>
  match skipWs cs with
  | [] => none
  | c :: r =>
    if c = 'n' then (dropChars "ull".data r).map (fun r1 => (.jnull, r1))
    else if c = 't' then (dropChars "rue".data r).map (fun r1 => (.jbool true, r1))
    else if c = 'f' then (dropChars "alse".data r).map (fun r1 => (.jbool false, r1))
    else if c = '"' then (parseStrAux r []).map (fun p => (.jstr p.1, p.2))
    else if c = '[' then
      (match skipWs r with
       | ']' :: r1 => some (.jarr .nil, r1)
       | r1 => (parseItemsA f r1).map (fun p => (.jarr p.1, p.2)))
    else if c = lbrace then
      (match skipWs r with
       | c1 :: r1 =>
         if c1 = rbrace then some (.jobj .nil, r1)
         else (parseItemsO f (c1 :: r1)).map (fun p => (.jobj p.1, p.2))
       | [] => none)
    else
      (parseNum (c :: r)).map (fun p => (.jnum p.1, p.2))

def parseItemsA : ℕ → List Char → Option (JArr × List Char)
| 0, _ => none
| f + 1, cs => do
  let (v, cs1) ← parseJ f cs
  match skipWs cs1 with
  | ',' :: cs2 => do
    let (tl, cs3) ← parseItemsA f cs2
    pure (.cons v tl, cs3)
  | ']' :: cs2 => pure (.cons v .nil, cs2)
  | _ => none

def parseItemsO : ℕ → List Char → Option (JObj × List Char)
| 0, _ => none
| f + 1, cs =>
  match skipWs cs with
  | '"' :: r => do
    let (k, cs1) ← parseStrAux r []
    match skipWs cs1 with
    | ':' :: cs2 => do
      let (v, cs3) ← parseJ f cs2
      (match skipWs cs3 with
       | ',' :: cs4 => do
         let (tl, cs5) ← parseItemsO f cs4
         pure (.cons k v tl, cs5)
       | c :: cs4 => if c = rbrace then pure (.cons k v .nil, cs4) else none
       | [] => none)
    | _ => none
  | _ => none

end

/-- `JSON.parse(s)`: a parsed document, or `none` when the text is not valid
JSON (including the empty string and trailing garbage). -/
def jsonParse (s : String) : Option JVal :=
  match parseJ (s.length + 2) s.data with
  | some (v, rest) => if skipWs rest = [] then some v else none
  | none => none

/-! ### `HTTP2Strategy` (`src/api/http2.ts`)

The strategy object holds a `closed` flag and one multiplexed session;
`sessionGen` counts how many sessions `_reviveSession` has opened, so a
revival is observable in the model.  A `request` call first runs the
synchronous prelude (`requestStart`): when `closed` it throws — the promise
rejects at once, nothing is sent and no session is touched; when the session
is marked closed a fresh session is opened before the request is sent.  The
promise's fate is then a fold of the stream events over the handlers the
source installs (`stepEvent`): `response` records the status code and clears
the timer, `chunk` accumulates the body, `streamEnd` parses the body as JSON,
`timerFires` rejects with `DataAPITimeout` if the timer is still pending.
No handler ever removes the stream's listeners, so `listenersCleared` is
never set. -/

/-- The request-relevant fields of `InternalHTTPRequestInfo`. -/
structure RequestInfo where
  url : String
  data : Option JVal
  timeout : ℕ
deriving DecidableEq

/-- Errors a request promise can reject with.  `timeoutErr` models
`DataAPITimeout(info.data, info.timeout)`; the class itself lives in
`src/client/errors.ts`, outside the corpus — modelled from the spec as the
typed timeout error carrying the request body and the configured duration. -/
inductive H2Error where
| timeoutErr (data : Option JVal) (timeout : ℕ)
| streamErr (msg : String)
| parseErr (raw : String)
| closedErr (msg : String)
deriving DecidableEq

/-- Message text of an error.  The `parseErr` text is the literal string the
source builds; the `DataAPITimeout` text is not in the corpus and no theorem
relies on it. -/
def errMessage : H2Error → String
| .timeoutErr _ _ => "Command timed out"
| .streamErr m => m
| .parseErr raw => "Unable to parse response as JSON, got: \"" ++ raw ++ "\""
| .closedErr m => m

/-- The `InternalAPIResponse` shape resolved on success. -/
structure APIResponse where
  status : ℕ
  data : JVal
deriving DecidableEq

/-- Settlement state of the request promise. -/
inductive PromiseState where
| pending
| resolved (r : APIResponse)
| rejected (e : H2Error)
deriving DecidableEq

/-- Per-request mutable state: the closed-over locals of the promise executor
(`status`, `responseBody`, the timer) plus the promise itself.  `settles`
counts effective settlements; `listenersCleared` records whether any handler
removed the stream's listeners (none ever does). -/
structure ReqCtx where
  info : RequestInfo
  status : ℕ := 0
  body : String := ""
  timerActive : Bool := true
  promise : PromiseState := .pending
  settles : ℕ := 0
  listenersCleared : Bool := false
deriving DecidableEq

/-- Settle the promise: JavaScript promises settle at most once, a later
`resolve`/`reject` call is a no-op. -/
def settle (c : ReqCtx) (p : PromiseState) : ReqCtx :=
  match c.promise with
  | .pending => { c with promise := p, settles := c.settles + 1 }
  | _ => c

/-- Events a pending request can observe. -/
inductive H2Event where
| timerFires
| response (status : ℕ)
| streamError (msg : String)
| chunk (s : String)
| streamEnd
deriving DecidableEq

/-- One event through the handlers installed by `request`. -/
def stepEvent (c : ReqCtx) : H2Event → ReqCtx
| .timerFires =>
  if c.timerActive then
    settle { c with timerActive := false }
      (.rejected (.timeoutErr c.info.data c.info.timeout))
  else c
| .response st => { c with timerActive := false, status := st }
| .streamError m => settle { c with timerActive := false } (.rejected (.streamErr m))
| .chunk s => { c with body := c.body ++ s }
| .streamEnd =>
  match jsonParse c.body with
  | some d => settle { c with timerActive := false } (.resolved ⟨c.status, d⟩)
  | none => settle { c with timerActive := false } (.rejected (.parseErr c.body))

/-- Fold a stream of events over the handlers. -/
def runEvents (c : ReqCtx) (evs : List H2Event) : ReqCtx := evs.foldl stepEvent c

/-- Strategy-level state of `HTTP2Strategy`. -/
structure H2State where
  closed : Bool
  sessionClosed : Bool
  sessionGen : ℕ
deriving DecidableEq

/-- The message of the error thrown on a closed strategy. -/
def closedMsg : String := "Cannot make http2 request when client is closed"

/-- Outcome of the synchronous prelude of `request`. -/
inductive StartResult where
| rejectedClosed (msg : String)
| started (gen : ℕ) (c : ReqCtx)
deriving DecidableEq

/-- Initial per-request state. -/
def initCtx (info : RequestInfo) : ReqCtx := { info := info }

/-- The synchronous prelude of `request`: throw when closed; revive the
session when it is marked closed; then send the request on the current
session. -/
def requestStart (s : H2State) (info : RequestInfo) : H2State × StartResult :=
  if s.closed then (s, .rejectedClosed closedMsg)
  else if s.sessionClosed then
    ({ s with sessionClosed := false, sessionGen := s.sessionGen + 1 },
      .started (s.sessionGen + 1) (initCtx info))
  else (s, .started s.sessionGen (initCtx info))

/-- `close()`: close the session and set the `closed` flag. -/
def h2close (s : H2State) : H2State := { s with closed := true, sessionClosed := true }

/-- The promise a call to `request` settles to, given the stream events. -/
def reqOutcome : StartResult → List H2Event → PromiseState
| .rejectedClosed m, _ => .rejected (.closedErr m)
| .started _ c, evs => (runEvents c evs).promise

/-- Operations a caller can perform on the strategy object. -/
inductive H2Op where
| closeOp
| requestOp (info : RequestInfo)
deriving DecidableEq

/-- Strategy-state effect of one operation. -/
def applyOp (s : H2State) : H2Op → H2State
| .closeOp => h2close s
| .requestOp info => (requestStart s info).1

/-- Strategy-state effect of a sequence of operations. -/
def runOps (s : H2State) (ops : List H2Op) : H2State := ops.foldl applyOp s

/-! ### DevOps API errors (`src/devops/errors.ts`) -/

/-- A raw error entry of a response body (`e.ID`, `e.message`). -/
structure DevOpsErrEntry where
  ID : Option ℕ
  message : Option String
deriving DecidableEq

/-- The body of a DevOps response, as far as the error path inspects it. -/
structure DevOpsRespData where
  errors : Option (List DevOpsErrEntry)
deriving DecidableEq

/-- A `GuaranteedAPIResponse`: optional parsed body and status code. -/
structure GuaranteedAPIResponse where
  data : Option DevOpsRespData
  status : Option ℕ
deriving DecidableEq

/-- A `DevOpsAPIErrorDescriptor`. -/
structure DevOpsAPIErrorDescriptor where
  id : Option ℕ
  message : Option String
deriving DecidableEq

/-- JavaScript truthiness of an optional string (`e.message` is truthy):
absent or empty is falsy. -/
def jsTruthyStr : Option String → Bool
| some s => s != ""
| none => false

/-- The generic fallback message. -/
def fallbackMessage : String := "Something went wrong"

/-- `resp.data?.errors || []`. -/
def respErrors (resp : GuaranteedAPIResponse) : List DevOpsErrEntry :=
  match resp.data with
  | some d => d.errors.getD []
  | none => []

/-- `resp.data?.errors?.find(e => e.message)?.message ?? 'Something went wrong'`. -/
def respMessage (resp : GuaranteedAPIResponse) : String :=
  match (respErrors resp).find? (fun e => jsTruthyStr e.message) with
  | some e => e.message.getD fallbackMessage
  | none => fallbackMessage

/-- `extractErrorDescriptors`. -/
def extractErrorDescriptors (resp : GuaranteedAPIResponse) : List DevOpsAPIErrorDescriptor :=
  (respErrors resp).map (fun e => ⟨e.ID, e.message⟩)

/-- The fields `DevOpsAPIResponseError`'s constructor sets. -/
structure DevOpsAPIResponseError where
  message : String
  errors : List DevOpsAPIErrorDescriptor
  status : Option ℕ
deriving DecidableEq

/-- The `DevOpsAPIResponseError` constructor. -/
def mkDevOpsAPIResponseError (resp : GuaranteedAPIResponse) : DevOpsAPIResponseError :=
  ⟨respMessage resp, extractErrorDescriptors resp, resp.status⟩

/-! ### `AstraDbAdmin.listNamespaces` and the poller call sites -/

/-- The `info` sub-record of a database-info record, as far as
`listNamespaces` inspects it. -/
structure DbInfoInner where
  keyspace : Option String
  additionalKeyspaces : Option (List String)
deriving DecidableEq

/-- `[i.info.keyspace!, ...i.info.additionalKeyspaces ?? []].filter(Boolean)`:
the primary keyspace (possibly `undefined`) first, then the additional ones,
with falsy entries removed. -/
def listNamespaces (i : DbInfoInner) : List String :=
  (i.keyspace :: (i.additionalKeyspaces.getD []).map some).filterMap
    (fun o => if jsTruthyStr o then o else none)

/-- One `awaitStatus` call-site configuration: target terminal status,
accepted transient statuses, poll interval. -/
structure PollSiteConfig where
  terminal : String
  transients : List String
  pollInterval : ℕ
deriving DecidableEq

/-- `AstraAdmin.createDatabase` awaits
`awaitStatus(db, 'ACTIVE', ['INITIALIZING', 'PENDING'], options, 10000)`. -/
def createDatabasePollCalls : List PollSiteConfig :=
  [⟨"ACTIVE", ["INITIALIZING", "PENDING"], 10000⟩]

/-- `AstraAdmin.dropDatabase` awaits
`awaitStatus(\x7b id \x7d, 'TERMINATED', ['TERMINATING'], options, 10000)`. -/
def dropDatabasePollCalls : List PollSiteConfig :=
  [⟨"TERMINATED", ["TERMINATING"], 10000⟩]

/-- `AstraDbAdmin.createNamespace` issues a single POST and returns: it
contains no `awaitStatus` call at all. -/
def createNamespacePollCalls : List PollSiteConfig := []

/-- `AstraDbAdmin.dropNamespace` issues a single DELETE and returns: it
contains no `awaitStatus` call at all. -/
def dropNamespacePollCalls : List PollSiteConfig := []

/-! ### Concrete documents used in counterexamples and witnesses -/

/-- A binary-tagged identifier leaf with the given base64 payload and subtype. -/
def binDoc (b64 sub : String) : JVal :=
  .jobj (.cons "$binary"
    (.jobj (.cons "base64" (.jstr b64) (.cons "subType" (.jstr sub) .nil))) .nil)

/-- A high-precision decimal leaf with the given payload string. -/
def decDoc (s : String) : JVal :=
  .jobj (.cons "$numberDecimal" (.jstr s) .nil)

/-- The all-zero 16-byte binary-tagged identifier. -/
def uuidBinDoc : JVal := binDoc "AAAAAAAAAAAAAAAAAAAAAA==" "03"

/-- A plain nested command document. -/
def sampleDoc : JVal :=
  .jobj (.cons "insertOne"
    (.jobj (.cons "document"
      (.jarr (.cons (.jnum 1) (.cons (.jstr "x") (.cons (.jbool true) (.cons .jnull .nil)))))
      .nil)) .nil)

/-- The claim's shape of the binary encoding: the lowercase hexadecimal
characters of the bytes, grouped by hyphens as 8-4-4-4-12 characters. -/
def specUuid (bs : List ℕ) : String :=
  let h := hexLower bs
  ⟨h.take 8 ++ '-' :: ((h.drop 8).take 4) ++ '-' :: ((h.drop 12).take 4)
    ++ '-' :: ((h.drop 16).take 4) ++ '-' :: (h.drop 20).take 12⟩

/-- The sixteen lowercase hexadecimal characters. -/
def lowerHexChars : List Char := "0123456789abcdef".data

/-! ## Theorems -/

/-- A plain object has none of the four reserved keys. -/
theorem plainO_lookup : ∀ (fs : JObj) (k : String),
    (k = "$oid" ∨ k = "$numberDecimal" ∨ k = "$binary" ∨ k = "$date") →
    plainO fs = true → lookupField fs k = none
| .nil, _, _, _ => rfl
| .cons k' v tl, k, hk, h => by
  have hne : (k' == "$oid" || k' == "$numberDecimal" || k' == "$binary" || k' == "$date")
      = false := by
    cases hb : (k' == "$oid" || k' == "$numberDecimal" || k' == "$binary" || k' == "$date") with
    | false => rfl
    | true => rw [plainO, hb] at h; simp at h
  have htl : plainO tl = true := by
    rw [plainO] at h
    exact (Bool.and_eq_true _ _ |>.mp h).2
  simp only [Bool.or_eq_false_iff, beq_eq_false_iff_ne, ne_eq] at hne
  have hkk : k' ≠ k := by
    rcases hk with h | h | h | h <;> subst h <;> tauto
  simp [lookupField, hkk, plainO_lookup tl k hk htl]

/-- With enough fuel, the encoder is the identity on plain JSON documents:
the replacer leaves plain values untouched at every node. -/
theorem encodeF_plain : ∀ f : ℕ,
    (∀ v : JVal, plainV v = true → jsize v ≤ f → encodeValF f v = some v) ∧
    (∀ xs : JArr, plainA xs = true → jsizeA xs ≤ f → encodeArrF f xs = some xs) ∧
    (∀ fs : JObj, plainO fs = true → jsizeO fs ≤ f → encodeObjF f fs = some fs) := by
  intro f
  induction f with
  | zero =>
    refine ⟨?_, ?_, ?_⟩
    · intro v _ hs; exfalso; cases v <;> simp [jsize] at hs
    · intro xs _ hs; exfalso; cases xs <;> simp [jsizeA] at hs
    · intro fs _ hs; exfalso; cases fs <;> simp [jsizeO] at hs
  | succ f ih =>
    obtain ⟨ihV, ihA, ihO⟩ := ih
    refine ⟨?_, ?_, ?_⟩
    · intro v hp hs
      cases v with
      | jnull => rfl
      | jbool b => rfl
      | jnum q => rfl
      | jnan => rw [plainV] at hp; exact absurd hp (by simp)
      | jstr s => rfl
      | jbigint n => rw [plainV] at hp; exact absurd hp (by simp)
      | jarr xs =>
        have hxs : plainA xs = true := by rwa [plainV] at hp
        have hsz : jsizeA xs ≤ f := by rw [jsize] at hs; omega
        simp [encodeValF, ihA xs hxs hsz]
      | jobj fs =>
        have hfs : plainO fs = true := by rwa [plainV] at hp
        have h1 := plainO_lookup fs "$oid" (by tauto) hfs
        have h2 := plainO_lookup fs "$numberDecimal" (by tauto) hfs
        have h3 := plainO_lookup fs "$binary" (by tauto) hfs
        have h4 := plainO_lookup fs "$date" (by tauto) hfs
        have hsz : jsizeO fs ≤ f := by rw [jsize] at hs; omega
        simp [encodeValF, truthyAt, h1, h2, h3, h4, binCond, ihO fs hfs hsz]
    · intro xs hp hs
      cases xs with
      | nil => rfl
      | cons v tl =>
        rw [plainA] at hp
        obtain ⟨hv, htl⟩ := Bool.and_eq_true _ _ |>.mp hp
        have s1 : jsize v ≤ f := by rw [jsizeA] at hs; omega
        have s2 : jsizeA tl ≤ f := by rw [jsizeA] at hs; omega
        simp [encodeArrF, ihV v hv s1, ihA tl htl s2]
    · intro fs hp hs
      cases fs with
      | nil => rfl
      | cons k v tl =>
        rw [plainO] at hp
        have hv : plainV v = true := by
          have h1 := Bool.and_eq_true _ _ |>.mp hp
          exact (Bool.and_eq_true _ _ |>.mp h1.1).2
        have htl : plainO tl = true := (Bool.and_eq_true _ _ |>.mp hp).2
        have s1 : jsize v ≤ f := by rw [jsizeO] at hs; omega
        have s2 : jsizeO tl ≤ f := by rw [jsizeO] at hs; omega
        simp [encodeObjF, ihV v hv s1, ihO tl htl s2]

/-- C1 (amended): for every plain JSON value — strings, numbers, booleans,
null and nested arrays/objects of them that use none of the reserved tagged
keys — decoding the text produced by encoding `v` via `serializeCommand`
reproduces `v`. -/
theorem C1_round_trip_plain (v : JVal) (h : plainV v = true) :
    (encode v).bind decodeDoc = some v := by
  have he : encodeValF (jsize v) v = some v := (encodeF_plain (jsize v)).1 v h (le_refl _)
  simp [encode, he, decodeDoc, h]

/-- C1 counterexample: a binary-tagged identifier is a supported leaf, but
decoding its encoding yields the hyphenated hexadecimal string, not the
original tagged value, so `decode(encode(v))` does not reproduce `v`. -/
theorem C1_round_trip_counterexample :
    (encode uuidBinDoc).bind decodeDoc =
      some (.jstr "00000000-0000-0000-0000-000000000000") ∧
    (encode uuidBinDoc).bind decodeDoc ≠ some uuidBinDoc := by decide

/-- C1 witness: a concrete nested plain command round-trips. -/
theorem C1_round_trip_witness :
    plainV sampleDoc = true ∧ (encode sampleDoc).bind decodeDoc = some sampleDoc :=
  ⟨by decide, C1_round_trip_plain sampleDoc (by decide)⟩

/-- Hex encoding produces two characters per byte. -/
theorem hexLower_length : ∀ bs : List ℕ, (hexLower bs).length = 2 * bs.length
| [] => rfl
| b :: tl => by
  have ih := hexLower_length tl
  simp [hexLower, byteHex] at ih ⊢
  omega

/-- Hex encoding produces lowercase hexadecimal characters only. -/
theorem hexLower_mem (bs : List ℕ) : ∀ c ∈ hexLower bs, c ∈ lowerHexChars := by
  have hd : ∀ n < 16, hexDigit n ∈ lowerHexChars := by decide
  induction bs with
  | nil => simp [hexLower]
  | cons b tl ih =>
    intro c hc
    rw [show hexLower (b :: tl) = byteHex b ++ hexLower tl from rfl] at hc
    rcases List.mem_append.mp hc with hc | hc
    · simp only [byteHex, List.mem_cons, List.not_mem_nil, or_false] at hc
      rcases hc with hc | hc
      · exact hc ▸ hd _ (Nat.mod_lt _ (by omega))
      · exact hc ▸ hd _ (Nat.mod_lt _ (by omega))
    · exact ih c hc

/-- C8: a binary-tagged leaf with subtype `"03"` or `"04"` whose payload
decodes to sixteen bytes encodes to the lowercase hexadecimal string of those
bytes, hyphen-grouped as 8-4-4-4-12 characters. -/
theorem C8_binary_uuid (b64 sub : String)
    (hsub : sub = "03" ∨ sub = "04")
    (hlen : (base64Decode b64).length = 16) :
    encode (binDoc b64 sub) = some (.jstr (specUuid (base64Decode b64))) ∧
    ∀ c ∈ hexLower (base64Decode b64), c ∈ lowerHexChars := by
  refine ⟨?_, hexLower_mem _⟩
  have hhex : (hexLower (base64Decode b64)).length = 32 := by
    rw [hexLower_length, hlen]
  have huuid : binToUuid b64 = specUuid (base64Decode b64) := by
    rw [binToUuid, specUuid, uuidReplace]
    rw [if_pos (by omega)]
    rw [List.take_of_length_le (by omega), List.drop_eq_nil_of_le (by omega)]
    simp [hyphenate32]
  rcases hsub with rfl | rfl
  · rw [← huuid]; rfl
  · rw [← huuid]; rfl

/-- C8 witness: the all-zero sixteen-byte payload encodes to the all-zero
UUID string. -/
theorem C8_binary_uuid_witness :
    (("03" : String) = "03" ∨ ("03" : String) = "04") ∧
    (base64Decode "AAAAAAAAAAAAAAAAAAAAAA==").length = 16 ∧
    encode (binDoc "AAAAAAAAAAAAAAAAAAAAAA==" "03") =
      some (.jstr (specUuid (base64Decode "AAAAAAAAAAAAAAAAAAAAAA=="))) ∧
    specUuid (base64Decode "AAAAAAAAAAAAAAAAAAAAAA==") =
      "00000000-0000-0000-0000-000000000000" :=
  ⟨Or.inl rfl, by decide,
    (C8_binary_uuid "AAAAAAAAAAAAAAAAAAAAAA==" "03" (Or.inl rfl) (by decide)).1,
    by decide⟩

/-- C9 (amended): a nonzero BigInt leaf and a non-empty `$numberDecimal` leaf
are converted to the JSON number `Number(...)` of their value — the binary64
rounding of the exact value — and the conversion is lossy above `2 ^ 53`:
`9007199254740993` encodes to the same number as `9007199254740992`. -/
theorem C9_number_encoding :
    (∀ n : ℤ, n ≠ 0 → encode (.jbigint n) = some (.jnum (jsRound (n : ℚ)))) ∧
    (∀ (s : String) (q : ℚ), s ≠ "" → parseDecimal s = some q →
      encode (decDoc s) = some (.jnum (jsRound q))) ∧
    jsRound ((9007199254740993 : ℚ)) = ((9007199254740992 : ℚ)) ∧
    jsRound ((9007199254740992 : ℚ)) = ((9007199254740992 : ℚ)) ∧
    ((9007199254740993 : ℚ)) ≠ ((9007199254740992 : ℚ)) := by
  refine ⟨?_, ?_, by decide, by decide, by decide⟩
  · intro n hn
    simp [encode, jsize, encodeValF, hn]
  · intro s q hs hq
    have ht : truthy (.jstr s) = true := by simp [truthy, hs]
    simp [encode, decDoc, jsize, jsizeO, encodeValF, truthyAt, lookupField, ht,
      numDecResult, jsToNumber, hs, hq, binCond]

/-- C9 counterexample: the truthiness guards skip an empty `$numberDecimal`
payload (it passes through as the tagged object, not as `Number("") = 0`) and
skip BigInt `0n` (which then reaches the serializer raw and makes it throw),
so not every BigInt or `$numberDecimal` leaf is converted to a JSON number. -/
theorem C9_number_encoding_counterexample :
    encode (decDoc "") = some (decDoc "") ∧
    encode (decDoc "") ≠ some (.jnum 0) ∧
    encode (.jbigint 0) = none := by decide

/-- C9 witness: `2 ^ 53 + 1` as a BigInt and as a decimal string both encode
to the rounded number. -/
theorem C9_number_encoding_witness :
    ((9007199254740993 : ℤ)) ≠ 0 ∧
    encode (.jbigint 9007199254740993) =
      some (.jnum (jsRound (((9007199254740993 : ℤ)) : ℚ))) ∧
    ("9007199254740993" : String) ≠ "" ∧
    parseDecimal "9007199254740993" = some ((9007199254740993 : ℚ)) ∧
    encode (decDoc "9007199254740993") =
      some (.jnum (jsRound ((9007199254740993 : ℚ)))) :=
  ⟨by decide, C9_number_encoding.1 _ (by decide), by decide, by decide,
    C9_number_encoding.2.1 _ _ (by decide) (by decide)⟩

/-! ### HTTP/2 strategy lemmas -/

/-- Settling never changes the request info. -/
theorem settle_info (c : ReqCtx) (p : PromiseState) : (settle c p).info = c.info := by
  cases hp : c.promise <;> simp [settle, hp]

/-- No handler changes the request info. -/
theorem stepEvent_info (c : ReqCtx) (e : H2Event) : (stepEvent c e).info = c.info := by
  cases e with
  | timerFires => by_cases ht : c.timerActive <;> simp [stepEvent, ht, settle_info]
  | response st => rfl
  | streamError m => simp [stepEvent, settle_info]
  | chunk s => rfl
  | streamEnd => cases hj : jsonParse c.body <;> simp [stepEvent, hj, settle_info]

/-- The request info survives any event sequence. -/
theorem runEvents_info (c : ReqCtx) (evs : List H2Event) :
    (runEvents c evs).info = c.info := by
  induction evs generalizing c with
  | nil => rfl
  | cons e tl ih =>
    rw [runEvents, List.foldl_cons]
    rw [show List.foldl stepEvent (stepEvent c e) tl = runEvents (stepEvent c e) tl from rfl]
    rw [ih (stepEvent c e), stepEvent_info]

/-- A settled promise absorbs further settle calls. -/
theorem settle_settled (c : ReqCtx) (p : PromiseState) (h : c.promise ≠ .pending) :
    settle c p = c := by
  cases hp : c.promise with
  | pending => exact absurd hp h
  | resolved r => simp [settle, hp]
  | rejected e => simp [settle, hp]

/-- Once the promise has settled, no event changes it or settles again. -/
theorem stepEvent_settled (c : ReqCtx) (e : H2Event) (h : c.promise ≠ .pending) :
    (stepEvent c e).promise = c.promise ∧ (stepEvent c e).settles = c.settles := by
  cases e with
  | timerFires =>
    by_cases ht : c.timerActive
    · rw [stepEvent, if_pos ht, settle_settled { c with timerActive := false } _ h]
      exact ⟨rfl, rfl⟩
    · rw [stepEvent, if_neg ht]
      exact ⟨rfl, rfl⟩
  | response st => exact ⟨rfl, rfl⟩
  | streamError m =>
    rw [stepEvent, settle_settled { c with timerActive := false } _ h]
    exact ⟨rfl, rfl⟩
  | chunk s => exact ⟨rfl, rfl⟩
  | streamEnd =>
    cases hj : jsonParse c.body <;>
      · rw [stepEvent]
        simp only [hj]
        rw [settle_settled { c with timerActive := false } _ h]
        exact ⟨rfl, rfl⟩

/-- A settled promise and its settle count survive any further events:
a late-arriving response never resolves an already-rejected call. -/
theorem runEvents_settled (c : ReqCtx) (evs : List H2Event) (h : c.promise ≠ .pending) :
    (runEvents c evs).promise = c.promise ∧ (runEvents c evs).settles = c.settles := by
  induction evs generalizing c with
  | nil => exact ⟨rfl, rfl⟩
  | cons e tl ih =>
    rw [runEvents, List.foldl_cons]
    rw [show List.foldl stepEvent (stepEvent c e) tl = runEvents (stepEvent c e) tl from rfl]
    obtain ⟨h1, h2⟩ := stepEvent_settled c e h
    obtain ⟨h3, h4⟩ := ih (stepEvent c e) (by rw [h1]; exact h)
    exact ⟨h3.trans h1, h4.trans h2⟩

/-- While the promise is pending the settle count is zero. -/
theorem stepEvent_pendingZero (c : ReqCtx) (e : H2Event)
    (h : c.promise = .pending → c.settles = 0) :
    (stepEvent c e).promise = .pending → (stepEvent c e).settles = 0 := by
  by_cases hc : c.promise = .pending
  · have h0 := h hc
    cases e with
    | timerFires =>
      by_cases ht : c.timerActive
      · intro hp
        rw [stepEvent, if_pos ht, settle, hc] at hp
        simp at hp
      · intro _; rw [stepEvent, if_neg ht]; exact h0
    | response st => intro _; exact h0
    | streamError m =>
      intro hp
      rw [stepEvent, settle, hc] at hp
      simp at hp
    | chunk s => intro _; exact h0
    | streamEnd =>
      intro hp
      cases hj : jsonParse c.body <;>
        · rw [stepEvent] at hp
          simp only [hj] at hp
          rw [settle, hc] at hp
          simp at hp
  · intro hp
    obtain ⟨h1, _⟩ := stepEvent_settled c e hc
    exact absurd (h1 ▸ hp) hc

/-- A context reached from a fresh request while still pending has never
settled. -/
theorem runEvents_pendingZero (c : ReqCtx) (evs : List H2Event)
    (h : c.promise = .pending → c.settles = 0) :
    (runEvents c evs).promise = .pending → (runEvents c evs).settles = 0 := by
  induction evs generalizing c with
  | nil => exact h
  | cons e tl ih =>
    rw [runEvents, List.foldl_cons]
    exact ih (stepEvent c e) (stepEvent_pendingZero c e h)

/-- C2 (amended): when the timeout timer fires while the request is still
pending, the promise rejects exactly once with the typed timeout error
carrying the request body and the configured duration, and no later event —
including a late-arriving response — changes the settled promise. -/
theorem C2_timeout_rejects_once (info : RequestInfo) (evs1 evs2 : List H2Event)
    (hp : (runEvents (initCtx info) evs1).promise = .pending)
    (ht : (runEvents (initCtx info) evs1).timerActive = true) :
    (runEvents (initCtx info) (evs1 ++ .timerFires :: evs2)).promise =
      .rejected (.timeoutErr info.data info.timeout) ∧
    (runEvents (initCtx info) (evs1 ++ .timerFires :: evs2)).settles = 1 := by
  have hinfo : (runEvents (initCtx info) evs1).info = info := runEvents_info _ _
  have h0 : (runEvents (initCtx info) evs1).settles = 0 :=
    runEvents_pendingZero _ _ (fun _ => rfl) hp
  have hsplit : runEvents (initCtx info) (evs1 ++ .timerFires :: evs2) =
      runEvents (stepEvent (runEvents (initCtx info) evs1) .timerFires) evs2 := by
    rw [runEvents, List.foldl_append, List.foldl_cons]
    rfl
  have hstep : stepEvent (runEvents (initCtx info) evs1) .timerFires =
      { runEvents (initCtx info) evs1 with
          timerActive := false,
          promise := .rejected (.timeoutErr info.data info.timeout),
          settles := (runEvents (initCtx info) evs1).settles + 1 } := by
    rw [stepEvent, if_pos ht, settle]
    simp only [hp, hinfo]
  rw [hsplit, hstep]
  obtain ⟨h1, h2⟩ := runEvents_settled
    { runEvents (initCtx info) evs1 with
        timerActive := false,
        promise := .rejected (.timeoutErr info.data info.timeout),
        settles := (runEvents (initCtx info) evs1).settles + 1 }
    evs2 (by simp)
  rw [h1, h2, h0]
  exact ⟨rfl, rfl⟩

/-- C2 counterexample: after the timer fires the promise is rejected exactly
once with the timeout error, but the stream's listeners are not cleared —
no handler ever removes them — refuting the claim's final conjunct. -/
theorem C2_timeout_counterexample :
    (runEvents (initCtx ⟨"https://example.com", some sampleDoc, 500⟩)
      [.timerFires, .response 200, .chunk "\x7b\x7d", .streamEnd]).promise =
      .rejected (.timeoutErr (some sampleDoc) 500) ∧
    (runEvents (initCtx ⟨"https://example.com", some sampleDoc, 500⟩)
      [.timerFires, .response 200, .chunk "\x7b\x7d", .streamEnd]).settles = 1 ∧
    (runEvents (initCtx ⟨"https://example.com", some sampleDoc, 500⟩)
      [.timerFires, .response 200, .chunk "\x7b\x7d", .streamEnd]).listenersCleared
      = false := by decide

/-- C2 witness: a timer firing immediately, followed by a late response and
body, rejects once with the timeout error. -/
theorem C2_timeout_witness :
    (runEvents (initCtx ⟨"https://example.com", none, 30000⟩) []).promise = .pending ∧
    (runEvents (initCtx ⟨"https://example.com", none, 30000⟩) []).timerActive = true ∧
    (runEvents (initCtx ⟨"https://example.com", none, 30000⟩)
      ([] ++ .timerFires :: [.response 200, .chunk "\x7b\x7d", .streamEnd])).promise =
      .rejected (.timeoutErr none 30000) ∧
    (runEvents (initCtx ⟨"https://example.com", none, 30000⟩)
      ([] ++ .timerFires :: [.response 200, .chunk "\x7b\x7d", .streamEnd])).settles = 1 :=
  ⟨by decide, by decide,
    (C2_timeout_rejects_once ⟨"https://example.com", none, 30000⟩ []
      [.response 200, .chunk "\x7b\x7d", .streamEnd] (by decide) (by decide)).1,
    (C2_timeout_rejects_once ⟨"https://example.com", none, 30000⟩ []
      [.response 200, .chunk "\x7b\x7d", .streamEnd] (by decide) (by decide)).2⟩

/-- C3: a request on a non-closed strategy whose session is marked closed
opens a fresh session before sending, and its outcome for any stream events
is identical to a request on a strategy whose session was already open — the
revived session is observationally transparent. -/
theorem C3_session_revival (s sOpen : H2State) (info : RequestInfo) (evs : List H2Event)
    (hc : s.closed = false) (hs : s.sessionClosed = true)
    (hc2 : sOpen.closed = false) (hs2 : sOpen.sessionClosed = false) :
    (requestStart s info).1.sessionGen = s.sessionGen + 1 ∧
    (requestStart s info).1.sessionClosed = false ∧
    (requestStart s info).2 = .started (s.sessionGen + 1) (initCtx info) ∧
    reqOutcome (requestStart s info).2 evs = reqOutcome (requestStart sOpen info).2 evs := by
  simp [requestStart, hc, hs, hc2, hs2, reqOutcome]

/-- C3 witness: a concrete revived request resolves to the same
`status`/`data` response as one on an open session. -/
theorem C3_session_revival_witness :
    (⟨false, true, 3⟩ : H2State).closed = false ∧
    (⟨false, true, 3⟩ : H2State).sessionClosed = true ∧
    (requestStart ⟨false, true, 3⟩ ⟨"https://example.com", none, 30000⟩).1.sessionGen = 4 ∧
    reqOutcome (requestStart ⟨false, true, 3⟩ ⟨"https://example.com", none, 30000⟩).2
        [.response 200, .chunk "\x7b\x7d", .streamEnd] =
      reqOutcome (requestStart ⟨false, false, 7⟩ ⟨"https://example.com", none, 30000⟩).2
        [.response 200, .chunk "\x7b\x7d", .streamEnd] ∧
    reqOutcome (requestStart ⟨false, true, 3⟩ ⟨"https://example.com", none, 30000⟩).2
        [.response 200, .chunk "\x7b\x7d", .streamEnd] =
      .resolved ⟨200, .jobj .nil⟩ :=
  ⟨rfl, rfl,
    (C3_session_revival ⟨false, true, 3⟩ ⟨false, false, 7⟩ ⟨"https://example.com", none, 30000⟩
      [.response 200, .chunk "\x7b\x7d", .streamEnd] rfl rfl rfl rfl).1,
    (C3_session_revival ⟨false, true, 3⟩ ⟨false, false, 7⟩ ⟨"https://example.com", none, 30000⟩
      [.response 200, .chunk "\x7b\x7d", .streamEnd] rfl rfl rfl rfl).2.2.2,
    by decide⟩

/-- A closed strategy rejects the request at once and is left untouched. -/
theorem requestStart_closed (s : H2State) (info : RequestInfo) (h : s.closed = true) :
    requestStart s info = (s, .rejectedClosed closedMsg) := by
  simp [requestStart, h]

/-- The closed flag survives any operation sequence. -/
theorem runOps_closed (s : H2State) (ops : List H2Op) (h : s.closed = true) :
    (runOps s ops).closed = true := by
  induction ops generalizing s with
  | nil => exact h
  | cons op tl ih =>
    rw [runOps, List.foldl_cons]
    refine ih (applyOp s op) ?_
    cases op with
    | closeOp => rfl
    | requestOp info => rw [applyOp, requestStart_closed s info h]; exact h

/-- C6: after `close()` the closed flag remains true across every further
operation, and every subsequent `request` fails immediately with the closed
error, leaving the state untouched — no send, no session revival. -/
theorem C6_closed_terminal (s : H2State) (ops : List H2Op) (info : RequestInfo) :
    (runOps (h2close s) ops).closed = true ∧
    requestStart (runOps (h2close s) ops) info =
      (runOps (h2close s) ops, .rejectedClosed closedMsg) := by
  have h1 : (runOps (h2close s) ops).closed = true := runOps_closed _ _ rfl
  exact ⟨h1, requestStart_closed _ _ h1⟩

/-- C7: when the stream ends while the promise is pending and the accumulated
body is not valid JSON (the empty body included), the promise rejects with a
parse error whose message contains the raw body text. -/
theorem C7_nonjson_reject (info : RequestInfo) (evs : List H2Event)
    (hp : (runEvents (initCtx info) evs).promise = .pending)
    (hj : jsonParse (runEvents (initCtx info) evs).body = none) :
    (runEvents (initCtx info) (evs ++ [.streamEnd])).promise =
      .rejected (.parseErr (runEvents (initCtx info) evs).body) ∧
    ∃ pre post, errMessage (.parseErr (runEvents (initCtx info) evs).body) =
      pre ++ (runEvents (initCtx info) evs).body ++ post := by
  constructor
  · rw [runEvents, List.foldl_append, List.foldl_cons, List.foldl_nil]
    rw [show List.foldl stepEvent (initCtx info) evs = runEvents (initCtx info) evs from rfl]
    rw [stepEvent]
    simp only [hj]
    rw [settle, hp]
  · exact ⟨"Unable to parse response as JSON, got: \"", "\"", rfl⟩

/-- C7 witness: a 200 response whose body stays empty rejects with the parse
error naming the empty raw text. -/
theorem C7_nonjson_reject_witness :
    (runEvents (initCtx ⟨"https://example.com", none, 30000⟩) [.response 200]).promise
      = .pending ∧
    jsonParse (runEvents (initCtx ⟨"https://example.com", none, 30000⟩)
      [.response 200]).body = none ∧
    (runEvents (initCtx ⟨"https://example.com", none, 30000⟩)
      ([.response 200] ++ [.streamEnd])).promise =
      .rejected (.parseErr (runEvents (initCtx ⟨"https://example.com", none, 30000⟩)
        [.response 200]).body) :=
  ⟨by decide, by decide,
    (C7_nonjson_reject ⟨"https://example.com", none, 30000⟩ [.response 200]
      (by decide) (by decide)).1⟩

/-! ### DevOps error extraction and namespace listing -/

/-- An optional string is falsy exactly when it is absent or empty. -/
theorem jsTruthyStr_false_iff (o : Option String) :
    jsTruthyStr o = false ↔ ∀ s, o = some s → s = "" := by
  cases o <;> simp [jsTruthyStr]

/-- `find?` skips a prefix on which the predicate is false. -/
theorem find?_append_false {α : Type} (p : α → Bool) (l1 l2 : List α)
    (h : ∀ x ∈ l1, p x = false) :
    List.find? p (l1 ++ l2) = List.find? p l2 := by
  induction l1 with
  | nil => rfl
  | cons a tl ih =>
    rw [List.cons_append, List.find?_cons, h a (by simp)]
    exact ih (fun x hx => h x (by simp [hx]))

/-- C5: a DevOps error response with an errors list yields the elementwise,
order-preserving descriptor mapping of each entry to its `ID` and `message`;
the top-level message is the message of the first entry with a non-empty
message, and the generic fallback when no entry has one. -/
theorem C5_error_extraction (errs : List DevOpsErrEntry) (st : Option ℕ) :
    (mkDevOpsAPIResponseError ⟨some ⟨some errs⟩, st⟩).errors =
      errs.map (fun e => ⟨e.ID, e.message⟩) ∧
    (mkDevOpsAPIResponseError ⟨some ⟨some errs⟩, st⟩).status = st ∧
    ((∀ x ∈ errs, ∀ s, x.message = some s → s = "") →
      (mkDevOpsAPIResponseError ⟨some ⟨some errs⟩, st⟩).message = "Something went wrong") ∧
    (∀ (l1 l2 : List DevOpsErrEntry) (e : DevOpsErrEntry) (s : String),
      errs = l1 ++ e :: l2 → (∀ x ∈ l1, ∀ s2, x.message = some s2 → s2 = "") →
      e.message = some s → s ≠ "" →
      (mkDevOpsAPIResponseError ⟨some ⟨some errs⟩, st⟩).message = s) := by
  refine ⟨rfl, rfl, ?_, ?_⟩
  · intro hall
    have hfind : List.find? (fun e => jsTruthyStr e.message) errs = none :=
      List.find?_eq_none.mpr (fun x hx => by
        simp only [Bool.not_eq_true]
        exact (jsTruthyStr_false_iff x.message).mpr (hall x hx))
    show respMessage _ = _
    rw [respMessage]
    simp only [respErrors, Option.getD, hfind]
    rfl
  · intro l1 l2 e s heq hl1 hmsg hs
    have hfind : List.find? (fun x => jsTruthyStr x.message) errs = some e := by
      rw [heq, find?_append_false _ l1 _
        (fun x hx => (jsTruthyStr_false_iff x.message).mpr (hl1 x hx))]
      rw [List.find?_cons]
      have : jsTruthyStr e.message = true := by simp [hmsg, jsTruthyStr, hs]
      rw [this]
    show respMessage _ = _
    rw [respMessage]
    simp only [respErrors, Option.getD, hfind, hmsg]

/-- C5 witness: the spec's example body yields descriptors
`[(1, "bad"), (2, none)]` and the top-level message `"bad"`. -/
theorem C5_error_extraction_witness :
    (mkDevOpsAPIResponseError
      ⟨some ⟨some [⟨some 1, some "bad"⟩, ⟨some 2, none⟩]⟩, some 400⟩).errors =
      [⟨some 1, some "bad"⟩, ⟨some 2, none⟩] ∧
    (mkDevOpsAPIResponseError
      ⟨some ⟨some [⟨some 1, some "bad"⟩, ⟨some 2, none⟩]⟩, some 400⟩).message = "bad" :=
  ⟨(C5_error_extraction [⟨some 1, some "bad"⟩, ⟨some 2, none⟩] (some 400)).1,
    (C5_error_extraction [⟨some 1, some "bad"⟩, ⟨some 2, none⟩] (some 400)).2.2.2
      [] [⟨some 2, none⟩] ⟨some 1, some "bad"⟩ "bad" rfl (by simp) rfl (by decide)⟩

/-- Filtering the spread additional keyspaces keeps exactly the non-empty
entries, in order. -/
theorem filterMap_truthy_map_some (l : List String) :
    (l.map some).filterMap (fun o => if jsTruthyStr o then o else none) =
      l.filter (fun s => s ≠ "") := by
  induction l with
  | nil => rfl
  | cons a tl ih =>
    rw [List.map_cons, List.filterMap_cons, List.filter_cons]
    by_cases ha : a = ""
    · subst ha
      rw [show (if jsTruthyStr (some "") = true then some "" else none) = none from rfl]
      rw [ih]
      norm_num
    · have h1 : (if jsTruthyStr (some a) = true then some a else none) = some a := by
        simp [jsTruthyStr, ha]
      rw [h1, ih]
      simp [ha]

/-- C10: `listNamespaces` returns the primary keyspace first when it is
present and non-empty, then the additional keyspaces in order with empty
entries removed; a record with no keyspace and no additional keyspaces gives
the empty list. -/
theorem C10_list_namespaces (i : DbInfoInner) :
    listNamespaces i =
      (match i.keyspace with
       | some k => if k = "" then [] else [k]
       | none => []) ++ (i.additionalKeyspaces.getD []).filter (fun s => s ≠ "") ∧
    (i.keyspace = none → i.additionalKeyspaces = none → listNamespaces i = []) := by
  constructor
  · rw [listNamespaces, List.filterMap_cons]
    cases hk : i.keyspace with
    | none =>
      rw [show (if jsTruthyStr none = true then (none : Option String) else none) = none
        from rfl]
      rw [filterMap_truthy_map_some, List.nil_append]
    | some k =>
      by_cases hke : k = ""
      · subst hke
        rw [show (if jsTruthyStr (some "") = true then some "" else none) = none from rfl]
        rw [filterMap_truthy_map_some]
        norm_num
      · have h1 : (if jsTruthyStr (some k) = true then some k else none) = some k := by
          simp [jsTruthyStr, hke]
        rw [h1, filterMap_truthy_map_some]
        simp [hke]
  · intro h1 h2
    rw [listNamespaces, h1, h2]
    rfl

/-- C10 witness: a record with no keyspaces at all lists no namespaces. -/
theorem C10_list_namespaces_witness :
    (⟨none, none⟩ : DbInfoInner).keyspace = none ∧
    (⟨none, none⟩ : DbInfoInner).additionalKeyspaces = none ∧
    listNamespaces ⟨none, none⟩ = [] :=
  ⟨rfl, rfl, (C10_list_namespaces ⟨none, none⟩).2 rfl rfl⟩

/-- C4: the database-level blocking operations configure the poller as the
claim states — creation awaits `ACTIVE` through `INITIALIZING`/`PENDING` and
termination awaits `TERMINATED` through `TERMINATING` — but the namespace
operations in `AstraDbAdmin` contain no poller call at all, diverging from
the claim and from the repository's own lifecycle test, which passes blocking
options to them and expects `MAINTENANCE`-state polling. -/
theorem C4_poll_configs :
    createDatabasePollCalls = [⟨"ACTIVE", ["INITIALIZING", "PENDING"], 10000⟩] ∧
    dropDatabasePollCalls = [⟨"TERMINATED", ["TERMINATING"], 10000⟩] ∧
    createNamespacePollCalls = [] ∧
    dropNamespacePollCalls = [] :=
  ⟨rfl, rfl, rfl, rfl⟩

end AstraSpec
